import Mathlib

/-!
Verification of the M&A Radar signal scoring and deduplication pipeline
(`src/scoring/engine.py`, `src/main.py`, `src/config.py`).

The Python code is shallowly embedded:
* dict-shaped signal records become structures with optional fields;
* the CPython `float` arithmetic in `_calculer_score_final`
  (`int(score_ia * 0.7 + bonus_normalise)`) is embedded exactly as
  IEEE-754 binary64 arithmetic, represented by dyadic rationals scaled
  to integers (units of `2 ^ (-54)`), with round-to-nearest-even;
* the Anthropic API call plus JSON parsing (`analyser`'s `try` body up to
  `_parser_reponse`) is abstracted as an oracle function
  `Signal → Except String ResultatIA`: an `Except.error` value models the
  API call raising (caught by `analyser`'s `except`), and an `Except.ok`
  value models a parsed result record (`_parser_reponse` itself never
  raises: on malformed JSON it returns a degraded record, also `.ok` here);
* `list.sort(key=..., reverse=True)` (Timsort, stable, descending) is
  embedded as `List.insertionSort` with the relation
  `b.score_final ≤ a.score_final`, which is the stable descending sort.
-/

/-! ### Exact model of the CPython float expression
`int(score_ia * 0.7 + bonus_normalise)` -/

/-- Numerator of the IEEE-754 binary64 double nearest to the literal `0.7`:
`(0.7).as_integer_ratio() == (3152519739159347, 2**52)`. -/
def mant07 : ℕ := 3152519739159347

/-- Bit length of a natural number (`n.bit_length()`), with explicit fuel so
that the definition is structurally recursive (the values in this
development are far below `2 ^ 128`). -/
def bitLenAux : ℕ → ℕ → ℕ
  | 0, _ => 0
  | fuel + 1, n => if n = 0 then 0 else bitLenAux fuel (n / 2) + 1

/-- Bit length of a natural number, enough fuel for all values used here. -/
def bitLen (n : ℕ) : ℕ := bitLenAux 128 n

/-- Round a nonnegative dyadic value `P / 2 ^ 54` to the nearest IEEE-754
binary64 double (round half to even), returning the numerator of the result
over the same denominator `2 ^ 54`.  For values below `2 ^ 63` in these
units the ulp of the enclosing binade is `2 ^ (bitLen P - 53)` numerator
units (`1`, i.e. exactly representable, when `P` has at most 53 bits). -/
def roundDbl (P : ℕ) : ℕ :=
  if P = 0 then 0 else
    let sp := 2 ^ (bitLen P - 53)
    let q := P / sp
    let r := P % sp
    if 2 * r < sp then q * sp
    else if sp < 2 * r then (q + 1) * sp
    else if q % 2 = 0 then q * sp else (q + 1) * sp

/-- `int(s * 0.7 + b)` computed exactly as CPython does for nonnegative
integers `s` and `b`:  `s * 0.7` is the correctly rounded double product
`s · mant07 / 2 ^ 52 = 4 · s · mant07 / 2 ^ 54`, the sum with the exact
double `b` is correctly rounded again, and `int` truncates (floors, as the
value is nonnegative). -/
def pyBlend (s b : ℕ) : ℕ :=
  roundDbl (roundDbl (4 * s * mant07) + b * 2 ^ 54) / 2 ^ 54

/-! ### Configuration (`src/config.py`) -/

/-- `SCORING_WEIGHTS` from `src/config.py`, in declared order (Python dicts
preserve insertion order). -/
def SCORING_WEIGHTS : List (String × ℕ) :=
  [("transmission_succession", 25),
   ("acquereur_actif_secteur", 22),
   ("desinvestissement_activite", 20),
   ("besoin_cash_bfr", 18),
   ("gearing_eleve", 16),
   ("investissements_recents", 14),
   ("changement_direction", 12),
   ("recrutement_profil_ma", 10),
   ("expansion_geographique", 8),
   ("consolidation_sectorielle", 6)]

/-- `SEUIL_CRITIQUE` from `src/config.py`. -/
def SEUIL_CRITIQUE : ℕ := 80

/-- `SEUIL_VIGILANCE` from `src/config.py`. -/
def SEUIL_VIGILANCE : ℕ := 60

/-! ### String primitives (embedding the Python string operations used) -/

/-- Python `str.lower()` (ASCII-faithful), over the character list. -/
def lowerList (l : List Char) : List Char := l.map Char.toLower

/-- Python `cle.replace("_", " ")`: single-character pattern, so a
character-wise map. -/
def underscoreToSpace (l : List Char) : List Char :=
  l.map fun c => if c = '_' then ' ' else c

/-- Python `" ".join(strings)`, producing the character list. -/
def joinSpace : List String → List Char
  | [] => []
  | [s] => s.toList
  | s :: rest => s.toList ++ ' ' :: joinSpace rest

/-- Python `needle in haystack` on strings: contiguous-substring test
(an empty needle is always contained). -/
def isSubstring (needle : List Char) : List Char → Bool
  | [] => needle.isEmpty
  | h :: t => needle.isPrefixOf (h :: t) || isSubstring needle t

/-- Python `str.strip()` (ASCII whitespace), over the character list. -/
def trimChars (l : List Char) : List Char :=
  ((l.dropWhile Char.isWhitespace).reverse.dropWhile Char.isWhitespace).reverse

/-! ### Score blender (`ScoringEngine._calculer_score_final`) -/

/-- The rule-match test of the inner loop of `_calculer_score_final`:
`cle.replace("_", " ") in " ".join(signaux_ids).lower()`. -/
def matchesGrid (signaux_ids : List String) (cle : String) : Bool :=
  isSubstring (underscoreToSpace cle.toList) (lowerList (joinSpace signaux_ids))

/-- The contribution of one pass of the inner
`for cle, poids in SCORING_WEIGHTS.items(): ... break` loop: the point
value of the first rule key (in declared order) whose space-normalized form
occurs in the joined lower-cased tag string, `0` when no key matches. -/
def premierPoids (signaux_ids : List String) : ℕ :=
  ((SCORING_WEIGHTS.find? fun kv => matchesGrid signaux_ids kv.1).map Prod.snd).getD 0

/-- `bonus_grille` of `_calculer_score_final`: the outer loop runs the
inner first-match scan once per element of `signaux_identifies` (the match
condition only inspects the joined list, never the loop variable). -/
def bonusGrille (signaux_ids : List String) : ℕ :=
  signaux_ids.foldl (fun acc _ => acc + premierPoids signaux_ids) 0

/-- `ScoringEngine._calculer_score_final` over the fields it reads from the
enriched signal dict (`score_ia`, `signaux_identifies`, `urgence_ia`). -/
def calculerScoreFinal (score_ia : ℕ) (signaux_ids : List String)
    (urgence : String) : ℕ :=
  let bonus_grille := bonusGrille signaux_ids
  let bonus_normalise := min 30 (bonus_grille / 3)
  let score1 := pyBlend score_ia bonus_normalise
  let score2 :=
    if urgence = "critique" then min 100 (score1 + 10)
    else if urgence = "fort" then min 100 (score1 + 5)
    else score1
  min 100 (max 0 score2)

/-- `ScoringEngine._determiner_niveau`. -/
def determinerNiveau (score : ℕ) : String :=
  if SEUIL_CRITIQUE ≤ score then "CRITIQUE"
  else if SEUIL_VIGILANCE ≤ score then "VIGILANCE"
  else if 40 ≤ score then "RADAR"
  else "FAIBLE"

/-! ### Data model

A raw `Signal` carries the fields the collectors
(`src/scrapers/*.py`) put into their signal dicts; `entreprise` is
optional because a collector may store `None` (or omit the key, which
behaves identically for every read in the scored core, all of which use
`.get`). -/

/-- A raw collector signal (`src/scrapers/*.py` output dicts). -/
structure Signal where
  source : String
  date : String
  titre : String
  url : String
  raw_text : String
  entreprise : Option String
  signal_type : String
deriving DecidableEq

/-- The record returned by `ScoringEngine._parser_reponse`: the parsed
oracle answer with the defaults `_parser_reponse` applies. -/
structure ResultatIA where
  entreprise : Option String
  secteur : String
  type_deal_probable : String
  signaux_identifies : List String
  score_ia : ℕ
  urgence_ia : String
  fenetre_action : String
  recommandation : String
  pertinent : Bool
  raison_non_pertinent : String
deriving DecidableEq

/-- The enriched signal produced by `ScoringEngine.analyser`:
`{**signal, **resultat}` plus `score_final`, `niveau_alerte` and (on the
error path only) `erreur`.  Enrichment fields are `Option`s because the
error path `{**signal, "score_final": 0, "niveau_alerte": "ERREUR",
"erreur": str(e)}` leaves them absent. -/
structure SignalEnrichi where
  source : String
  date : String
  titre : String
  url : String
  raw_text : String
  entreprise : Option String
  signal_type : String
  secteur : Option String
  type_deal_probable : Option String
  signaux_identifies : Option (List String)
  score_ia : Option ℕ
  urgence_ia : Option String
  fenetre_action : Option String
  recommandation : Option String
  pertinent : Option Bool
  raison_non_pertinent : Option String
  score_final : ℕ
  niveau_alerte : String
  erreur : Option String
deriving DecidableEq

/-- `ScoringEngine.analyser`.  The `oracle` argument stands for the prompt
construction + API call + `_parser_reponse` sequence: `Except.error e`
models the API call raising (landing in `analyser`'s `except` clause with
message `e`), `Except.ok r` models a parsed response.  On success the dict
merge `{**signal, **resultat}` lets the oracle's keys (in particular
`entreprise`) overwrite the signal's. -/
def analyser (oracle : Signal → Except String ResultatIA) (s : Signal) :
    SignalEnrichi :=
  match oracle s with
  | Except.ok r =>
      let sf := calculerScoreFinal r.score_ia r.signaux_identifies r.urgence_ia
      { source := s.source, date := s.date, titre := s.titre, url := s.url,
        raw_text := s.raw_text, entreprise := r.entreprise,
        signal_type := s.signal_type, secteur := some r.secteur,
        type_deal_probable := some r.type_deal_probable,
        signaux_identifies := some r.signaux_identifies,
        score_ia := some r.score_ia, urgence_ia := some r.urgence_ia,
        fenetre_action := some r.fenetre_action,
        recommandation := some r.recommandation,
        pertinent := some r.pertinent,
        raison_non_pertinent := some r.raison_non_pertinent,
        score_final := sf, niveau_alerte := determinerNiveau sf,
        erreur := none }
  | Except.error e =>
      { source := s.source, date := s.date, titre := s.titre, url := s.url,
        raw_text := s.raw_text, entreprise := s.entreprise,
        signal_type := s.signal_type, secteur := none,
        type_deal_probable := none, signaux_identifies := none,
        score_ia := none, urgence_ia := none, fenetre_action := none,
        recommandation := none, pertinent := none,
        raison_non_pertinent := none,
        score_final := 0, niveau_alerte := "ERREUR", erreur := some e }

/-- The ordering used by `resultats.sort(key=lambda x: x.get("score_final", 0),
reverse=True)`: `a` may come before `b` iff `a`'s score is at least `b`'s. -/
def ordreScore (a b : SignalEnrichi) : Prop :=
  b.score_final ≤ a.score_final

instance : DecidableRel ordreScore := fun a b =>
  Nat.decLe b.score_final a.score_final

instance : IsTotal SignalEnrichi ordreScore :=
  ⟨fun a b => Nat.le_total b.score_final a.score_final⟩

instance : IsTrans SignalEnrichi ordreScore :=
  ⟨fun _ _ _ h1 h2 => Nat.le_trans h2 h1⟩

/-- `ScoringEngine.analyser_batch`: score each signal in order, then sort
by descending `score_final`.  CPython's `list.sort` is stable and
`reverse=True` preserves stability, which is exactly insertion sort with
`ordreScore` (ties keep input order). -/
def analyserBatch (oracle : Signal → Except String ResultatIA)
    (signaux : List Signal) : List SignalEnrichi :=
  List.insertionSort ordreScore (signaux.map (analyser oracle))

/-- The sequence of arguments on which `run_pipeline` (phase 5,
`src/main.py`) invokes `engine.generer_memo`: the `critiques`
comprehension `[s for s in signaux_scores if s.get("niveau_alerte") ==
"CRITIQUE"]`, iterated in order. -/
def memoInvocations (signaux_scores : List SignalEnrichi) :
    List SignalEnrichi :=
  signaux_scores.filter fun s => s.niveau_alerte == "CRITIQUE"

/-! ### Deduplication (`main._dedupliquer`) -/

/-- The identity key of `main._dedupliquer`:
`(signal.get("entreprise", "") or signal.get("titre", "")[:50]).lower().strip()`.
A `None` (or absent) `entreprise` and the empty string are both falsy, so
either falls through to the truncated title. -/
def cleSignal (s : Signal) : List Char :=
  let base :=
    if s.entreprise.getD "" = "" then s.titre.toList.take 50
    else (s.entreprise.getD "").toList
  trimChars (lowerList base)

/-- The loop of `main._dedupliquer`, with the `vus` set of seen keys as an
explicit accumulator. -/
def dedupAux : List Signal → List (List Char) → List Signal
  | [], _ => []
  | s :: rest, vus =>
      if cleSignal s ≠ [] ∧ cleSignal s ∉ vus then
        s :: dedupAux rest (cleSignal s :: vus)
      else dedupAux rest vus

/-- `main._dedupliquer`. -/
def dedupliquer (signaux : List Signal) : List Signal :=
  dedupAux signaux []

/-- Modelled from the spec (§4.1, for comparison with `dedupliquer`): keep
a signal iff its identity key is nonempty and no earlier signal of the
input (kept or dropped) has the same key — "an ordered sequence preserving
the first occurrence of each identity key, all later duplicates dropped",
with empty-key signals excluded entirely.  `pref` is the already-examined
prefix of the input. -/
def dedupSpecAux : List Signal → List Signal → List Signal
  | _, [] => []
  | pref, s :: rest =>
      if cleSignal s ≠ [] ∧ ∀ t ∈ pref, cleSignal t ≠ cleSignal s then
        s :: dedupSpecAux (pref ++ [s]) rest
      else dedupSpecAux (pref ++ [s]) rest

/-- Modelled from the spec (§4.1): first-occurrence deduplication. -/
def dedupSpec (signaux : List Signal) : List Signal :=
  dedupSpecAux [] signaux

/-- Severity rank of an alert tier, for the monotonicity statement. -/
def niveauSeverite (niveau : String) : ℕ :=
  if niveau = "CRITIQUE" then 3
  else if niveau = "VIGILANCE" then 2
  else if niveau = "RADAR" then 1
  else 0

/-! ### Helper lemmas -/

/-- Folding `(· + c)` over a list adds `c` once per element. -/
theorem foldl_add_const {α : Type} (c : ℕ) :
    ∀ (l : List α) (a : ℕ), l.foldl (fun acc _ => acc + c) a = a + l.length * c
  | [], a => by simp
  | _ :: l, a => by
      rw [List.foldl, foldl_add_const c l, List.length_cons]
      ring

/-- Inserting an element whose score dominates a list puts it in front. -/
theorem orderedInsert_all_le (x : SignalEnrichi) (L : List SignalEnrichi)
    (hx : ∀ y ∈ L, y.score_final ≤ x.score_final) :
    List.orderedInsert ordreScore x L = x :: L := by
  cases L with
  | nil => rfl
  | cons b t =>
      rw [List.orderedInsert, if_pos]
      exact hx b (List.mem_cons_self b t)

/-- A list of all-zero scores is a fixed point of the stable sort. -/
theorem insertionSort_all_zero (L : List SignalEnrichi)
    (h : ∀ y ∈ L, y.score_final = 0) :
    List.insertionSort ordreScore L = L := by
  induction L with
  | nil => rfl
  | cons a t ih =>
      rw [List.insertionSort,
        ih fun y hy => h y (List.mem_cons_of_mem a hy)]
      exact orderedInsert_all_le a t fun y hy => by
        rw [h y (List.mem_cons_of_mem a hy), h a (List.mem_cons_self a t)]

/-- `orderedInsert` does not disturb the sub-list of scores different from
the inserted one. -/
theorem filter_orderedInsert_of_ne (n : ℕ) (x : SignalEnrichi)
    (L : List SignalEnrichi) (hx : x.score_final ≠ n) :
    (List.orderedInsert ordreScore x L).filter (fun r => r.score_final == n)
      = L.filter (fun r => r.score_final == n) := by
  induction L with
  | nil => simp [hx]
  | cons b t ih =>
      by_cases h : ordreScore x b
      · rw [List.orderedInsert, if_pos h, List.filter_cons]
        simp [hx]
      · rw [List.orderedInsert, if_neg h, List.filter_cons, ih,
          List.filter_cons]

/-- `orderedInsert` puts the inserted element in front of the sub-list of
elements sharing its score (stability: the new element came earliest in
the remaining input). -/
theorem filter_orderedInsert_of_eq (n : ℕ) (x : SignalEnrichi)
    (L : List SignalEnrichi) (hx : x.score_final = n) :
    (List.orderedInsert ordreScore x L).filter (fun r => r.score_final == n)
      = x :: L.filter (fun r => r.score_final == n) := by
  induction L with
  | nil => simp [hx]
  | cons b t ih =>
      by_cases h : ordreScore x b
      · rw [List.orderedInsert, if_pos h, List.filter_cons, List.filter_cons]
        simp [hx]
      · have hb : ¬b.score_final = n := by
          unfold ordreScore at h
          omega
        rw [List.orderedInsert, if_neg h, List.filter_cons, ih,
          List.filter_cons]
        simp [hb]

/-- The stable sort preserves each equal-score class in input order. -/
theorem filter_insertionSort_score (n : ℕ) (L : List SignalEnrichi) :
    (List.insertionSort ordreScore L).filter (fun r => r.score_final == n)
      = L.filter (fun r => r.score_final == n) := by
  induction L with
  | nil => rfl
  | cons a t ih =>
      rw [List.insertionSort]
      by_cases h : a.score_final = n
      · rw [filter_orderedInsert_of_eq n a _ h, ih, List.filter_cons]
        simp [h]
      · rw [filter_orderedInsert_of_ne n a _ h, ih, List.filter_cons]
        simp [h]

/-- The tier severity of a score, written as a numeric threshold chain. -/
theorem severite_determinerNiveau (x : ℕ) :
    niveauSeverite (determinerNiveau x)
      = if 80 ≤ x then 3 else if 60 ≤ x then 2 else if 40 ≤ x then 1 else 0 := by
  unfold determinerNiveau SEUIL_CRITIQUE SEUIL_VIGILANCE
  split_ifs <;> decide

/-! ### Claims -/

/-- C1 (counterexample): with `identified_signals = ["transmission_succession"]`,
oracle score 85 and urgency "critique", the code does NOT produce the
claimed normalized rule bonus 8 nor the claimed final score 77: the rule
keys are compared after replacing underscores with spaces, so the
underscore-form tag never contains any normalized key. -/
theorem C1_counterexample :
    calculerScoreFinal 85 ["transmission_succession"] "critique" ≠ 77 ∧
    min 30 (bonusGrille ["transmission_succession"] / 3) ≠ 8 := by
  decide

/-- C1 (amended): for oracle score 85, `identified_signals =
["transmission_succession"]` and urgency "critique", the rule bonus is 0
(the space-normalized key "transmission succession" is not a substring of
the underscore-form tag), the blended score is `int(85 * 0.7) = 59`, the
urgency-adjusted final score is 69, and the tier is VIGILANCE under the
default thresholds. -/
theorem C1_amended :
    bonusGrille ["transmission_succession"] = 0 ∧
    pyBlend 85 0 = 59 ∧
    calculerScoreFinal 85 ["transmission_succession"] "critique" = 69 ∧
    determinerNiveau
      (calculerScoreFinal 85 ["transmission_succession"] "critique")
      = "VIGILANCE" := by
  decide

/-- C2 (counterexample): the running bonus is NOT contributed exactly once
per evaluation of the identified-signals list: for the two-tag list
`["transmission succession", "x"]` the first rule key (weight 25) matches
the joined string, and the accumulator receives it once per tag, giving
50, not 25. -/
theorem C2_counterexample :
    bonusGrille ["transmission succession", "x"] = 50 ∧
    bonusGrille ["transmission succession", "x"] ≠ 25 := by
  decide

/-- C2 (amended): for every list of identified-signals tags, the rule
bonus accumulated before normalization equals the point value of the first
rule key (in the weight table's declared order) whose underscore-to-space
normalized form occurs in the lower-cased space-joined concatenation of
all tags, contributed once per TAG of the list (the match condition only
inspects the joined list, so every outer iteration adds the same first
match), and zero when no key matches. -/
theorem C2_amended (tags : List String) :
    bonusGrille tags = tags.length * premierPoids tags := by
  unfold bonusGrille
  rw [foldl_add_const]
  ring

/-- C3: every final score produced by the pipeline — through `analyser`
on any oracle outcome, or by the blender `_calculer_score_final` directly
on any oracle relevance score, tag list and urgency — lies in [0, 100]
(the lower bound holds by the `ℕ` codomain, faithful to the
`max(0, ...)` clamp; the upper bound is the `min(100, ...)` clamp). -/
theorem C3_score_clamp (oracle : Signal → Except String ResultatIA)
    (s : Signal) (score_ia : ℕ) (tags : List String) (urg : String) :
    (analyser oracle s).score_final ≤ 100 ∧
    calculerScoreFinal score_ia tags urg ≤ 100 := by
  constructor
  · cases h : oracle s <;> simp [analyser, h, calculerScoreFinal]
  · simp [calculerScoreFinal]

/-- C4: with an oracle whose call raises on every signal, the batch
analysis still returns one record per input, in input order (the stable
sort is the identity on all-zero scores), never propagating the failure
(`analyser` and `analyserBatch` are total functions); every record is the
degraded sentinel: `score_final = 0`, `niveau_alerte = "ERREUR"`, the
error message captured in `erreur`, and the collector fields intact. -/
theorem C4_oracle_failure_resilience (err : Signal → String)
    (l : List Signal) :
    (analyserBatch (fun s => Except.error (err s)) l).length = l.length ∧
    analyserBatch (fun s => Except.error (err s)) l
      = l.map (analyser fun s => Except.error (err s)) ∧
    ∀ s : Signal,
      (analyser (fun s2 => Except.error (err s2)) s).score_final = 0 ∧
      (analyser (fun s2 => Except.error (err s2)) s).niveau_alerte = "ERREUR" ∧
      (analyser (fun s2 => Except.error (err s2)) s).erreur = some (err s) ∧
      (analyser (fun s2 => Except.error (err s2)) s).titre = s.titre ∧
      (analyser (fun s2 => Except.error (err s2)) s).entreprise = s.entreprise := by
  have hzero :
      ∀ y ∈ l.map (analyser fun s => Except.error (err s)),
        y.score_final = 0 := by
    intro y hy
    obtain ⟨s, _, rfl⟩ := List.mem_map.mp hy
    rfl
  have heq :
      analyserBatch (fun s => Except.error (err s)) l
        = l.map (analyser fun s => Except.error (err s)) :=
    insertionSort_all_zero _ hzero
  refine ⟨by rw [heq, List.length_map], heq, fun s => ⟨rfl, rfl, rfl, rfl, rfl⟩⟩

/-- C5: the batch output is sorted non-increasingly by `score_final`
(`ordreScore` is exactly "left score ≥ right score"), and it is a stable
descending sort: for every score value, the records carrying that score
appear in the output in exactly the order the scored inputs had. -/
theorem C5_stable_descending_sort (oracle : Signal → Except String ResultatIA)
    (l : List Signal) :
    List.Sorted ordreScore (analyserBatch oracle l) ∧
    ∀ n : ℕ,
      (analyserBatch oracle l).filter (fun r => r.score_final == n)
        = (l.map (analyser oracle)).filter (fun r => r.score_final == n) :=
  ⟨List.sorted_insertionSort ordreScore _,
   fun n => filter_insertionSort_score n _⟩

/-- Counting inside the CRITIQUE filter: a record occurs in the filtered
list as often as in the source when it is CRITIQUE, and never otherwise. -/
theorem count_filter_critique (s : SignalEnrichi) (l : List SignalEnrichi) :
    (l.filter fun r => r.niveau_alerte == "CRITIQUE").count s
      = if s.niveau_alerte = "CRITIQUE" then l.count s else 0 := by
  induction l with
  | nil => simp
  | cons a t ih =>
      rw [List.filter_cons]
      by_cases ha : a.niveau_alerte = "CRITIQUE" <;>
        by_cases has : a = s <;>
          simp [ha, has, List.count_cons, ih] <;>
            simp_all

/-- C9: in a batch run, memo generation is invoked exactly once per
occurrence of a CRITIQUE-tier record in the scored batch, and never for a
record at any other tier (`memoInvocations` is the argument sequence of
the `generer_memo` calls of `run_pipeline` phase 5). -/
theorem C9_memo_gating (oracle : Signal → Except String ResultatIA)
    (signaux : List Signal) (s : SignalEnrichi) :
    (memoInvocations (analyserBatch oracle signaux)).count s
      = (if s.niveau_alerte = "CRITIQUE"
          then (analyserBatch oracle signaux).count s else 0) ∧
    (s ∈ memoInvocations (analyserBatch oracle signaux) ↔
      s ∈ analyserBatch oracle signaux ∧ s.niveau_alerte = "CRITIQUE") := by
  unfold memoInvocations
  refine ⟨count_filter_critique s _, ?_⟩
  simp [List.mem_filter]

/-! ### Concrete test records -/

/-- A parsed oracle result carrying exactly the defaults that
`_parser_reponse` applies for missing keys (`entreprise = None`,
`score_ma = 0`, `urgence = "faible"`, ...). -/
def resDefaut : ResultatIA :=
  { entreprise := none, secteur := "N/A", type_deal_probable := "inconnu",
    signaux_identifies := [], score_ia := 0, urgence_ia := "faible",
    fenetre_action := "N/A", recommandation := "", pertinent := true,
    raison_non_pertinent := "" }

/-- A concrete collector signal with a non-null company name (shaped like
the Bulletin Officiel demo signals). -/
def sigAtlas : Signal :=
  { source := "Bulletin Officiel", date := "2025-01-01",
    titre := "Cession de parts sociales — Atlas Distribution",
    url := "https://example.ma", raw_text := "Cession de 60% des parts",
    entreprise := some "ATLAS DISTRIBUTION SA",
    signal_type := "transmission_succession" }

/-- A concrete collector signal with no company name. -/
def sigSansNom : Signal :=
  { source := "Presse", date := "2025-01-02",
    titre := "Projet de fusion dans la distribution",
    url := "", raw_text := "", entreprise := none,
    signal_type := "acquereur_actif_secteur" }

/-- An oracle that raises on `sigAtlas` and answers `resDefaut` elsewhere. -/
def oracleMixte : Signal → Except String ResultatIA := fun s =>
  if s.titre = sigAtlas.titre then Except.error "API indisponible"
  else Except.ok resDefaut

/-- C6 (counterexample): the scoring stage does overwrite a non-null
collector-provided company name: `{**signal, **resultat}` gives the
oracle's keys precedence, so when the oracle extracts no company
(`entreprise = None`), the enriched record's `entreprise` becomes `None`
although the collector had provided one. -/
theorem C6_counterexample :
    sigAtlas.entreprise = some "ATLAS DISTRIBUTION SA" ∧
    (analyser (fun _ => Except.ok resDefaut) sigAtlas).entreprise = none := by
  constructor <;> rfl

/-- C6 (amended): on a successful oracle call, the dict merge
`{**signal, **resultat}` preserves every collector field the oracle result
does not carry (`source`, `date`, `titre`, `url`, `raw_text`,
`signal_type`), but replaces `entreprise` by the oracle's extracted value
unconditionally — a non-null collector company name is overwritten
whenever the oracle returns a different (possibly null) value.  On a
failed call every collector field, `entreprise` included, is preserved. -/
theorem C6_enrichment_merge (oracle : Signal → Except String ResultatIA)
    (s : Signal) (r : ResultatIA) (h : oracle s = Except.ok r) :
    (analyser oracle s).source = s.source ∧
    (analyser oracle s).date = s.date ∧
    (analyser oracle s).titre = s.titre ∧
    (analyser oracle s).url = s.url ∧
    (analyser oracle s).raw_text = s.raw_text ∧
    (analyser oracle s).signal_type = s.signal_type ∧
    (analyser oracle s).entreprise = r.entreprise ∧
    ∀ (oracle2 : Signal → Except String ResultatIA) (e : String),
      oracle2 s = Except.error e →
        (analyser oracle2 s).entreprise = s.entreprise := by
  refine ⟨by simp [analyser, h], by simp [analyser, h], by simp [analyser, h],
    by simp [analyser, h], by simp [analyser, h], by simp [analyser, h],
    by simp [analyser, h], ?_⟩
  intro oracle2 e h2
  simp [analyser, h2]

/-- C6 witness: the merge facts at the concrete signal `sigAtlas` and the
concrete parsed result `resDefaut`. -/
theorem C6_enrichment_merge_witness :
    (analyser (fun _ => Except.ok resDefaut) sigAtlas).titre = sigAtlas.titre ∧
    (analyser (fun _ => Except.ok resDefaut) sigAtlas).entreprise
      = resDefaut.entreprise :=
  ⟨(C6_enrichment_merge (fun _ => Except.ok resDefaut) sigAtlas resDefaut rfl).2.2.1,
   (C6_enrichment_merge (fun _ => Except.ok resDefaut) sigAtlas resDefaut rfl).2.2.2.2.2.2.1⟩

/-- C7 (counterexample): across the whole pipeline the tier is NOT a
function of `final_score` alone: a signal whose oracle call raised and a
signal scored 0 by the oracle both end with `final_score = 0`, yet the
first is tagged "ERREUR" (assigned independently of the score on the
error path) and the second "FAIBLE". -/
theorem C7_counterexample :
    (analyser oracleMixte sigAtlas).score_final
      = (analyser oracleMixte sigSansNom).score_final ∧
    (analyser oracleMixte sigAtlas).niveau_alerte = "ERREUR" ∧
    (analyser oracleMixte sigSansNom).niveau_alerte = "FAIBLE" ∧
    (analyser oracleMixte sigAtlas).niveau_alerte
      ≠ (analyser oracleMixte sigSansNom).niveau_alerte := by
  decide

/-- C7 (amended): for signals whose oracle call succeeds, the tier is the
pure deterministic function `_determiner_niveau` of `final_score` alone —
equal final scores receive equal tiers, tier severity is non-decreasing in
the score, and under the default thresholds score ≥ 80 gives CRITIQUE,
else ≥ 60 VIGILANCE, else ≥ 40 RADAR, else FAIBLE.  (Signals whose
oracle call raised are tagged "ERREUR" with score 0 independently of
`_determiner_niveau`, so the claim does not extend to those.) -/
theorem C7_tier_pure_monotone (oracle : Signal → Except String ResultatIA)
    (s1 s2 : Signal) (r1 r2 : ResultatIA)
    (h1 : oracle s1 = Except.ok r1) (h2 : oracle s2 = Except.ok r2) :
    ((analyser oracle s1).score_final = (analyser oracle s2).score_final →
      (analyser oracle s1).niveau_alerte = (analyser oracle s2).niveau_alerte) ∧
    (∀ x y : ℕ, x ≤ y →
      niveauSeverite (determinerNiveau x) ≤ niveauSeverite (determinerNiveau y)) ∧
    (∀ sc : ℕ,
      (80 ≤ sc → determinerNiveau sc = "CRITIQUE") ∧
      (60 ≤ sc → sc < 80 → determinerNiveau sc = "VIGILANCE") ∧
      (40 ≤ sc → sc < 60 → determinerNiveau sc = "RADAR") ∧
      (sc < 40 → determinerNiveau sc = "FAIBLE")) := by
  refine ⟨?_, ?_, ?_⟩
  · intro hsc
    simp only [analyser, h1, h2] at hsc ⊢
    rw [hsc]
  · intro x y hxy
    rw [severite_determinerNiveau, severite_determinerNiveau]
    split_ifs <;> omega
  · intro sc
    unfold determinerNiveau SEUIL_CRITIQUE SEUIL_VIGILANCE
    refine ⟨fun h80 => ?_, fun h60 h80 => ?_, fun h40 h60 => ?_, fun h40 => ?_⟩ <;>
      split_ifs <;> first | rfl | omega

/-- C7 witness: the amended facts at a concrete succeeding oracle. -/
theorem C7_tier_pure_monotone_witness :
    niveauSeverite (determinerNiveau 40) ≤ niveauSeverite (determinerNiveau 95) ∧
    determinerNiveau 95 = "CRITIQUE" ∧
    determinerNiveau 5 = "FAIBLE" :=
  ⟨(C7_tier_pure_monotone (fun _ => Except.ok resDefaut) sigSansNom sigSansNom
      resDefaut resDefaut rfl rfl).2.1 40 95 (by decide),
   ((C7_tier_pure_monotone (fun _ => Except.ok resDefaut) sigSansNom sigSansNom
      resDefaut resDefaut rfl rfl).2.2 95).1 (by decide),
   ((C7_tier_pure_monotone (fun _ => Except.ok resDefaut) sigSansNom sigSansNom
      resDefaut resDefaut rfl rfl).2.2 5).2.2.2 (by decide)⟩

/-- The seen-set of `_dedupliquer`'s loop holds exactly the nonempty keys
of the already-examined prefix, so the loop agrees with first-occurrence
deduplication. -/
theorem dedupAux_eq_dedupSpecAux :
    ∀ (rest : List Signal) (vus : List (List Char)) (pref : List Signal),
      (∀ k : List Char,
        k ∈ vus ↔ (k ≠ [] ∧ ∃ t ∈ pref, cleSignal t = k)) →
      dedupAux rest vus = dedupSpecAux pref rest
  | [], _, _, _ => rfl
  | s :: rest, vus, pref, h => by
      have hiff : (cleSignal s ≠ [] ∧ cleSignal s ∉ vus) ↔
          (cleSignal s ≠ [] ∧ ∀ t ∈ pref, cleSignal t ≠ cleSignal s) := by
        constructor
        · rintro ⟨h1, h2⟩
          exact ⟨h1, fun t ht heq => h2 ((h _).mpr ⟨h1, t, ht, heq⟩)⟩
        · rintro ⟨h1, h2⟩
          refine ⟨h1, fun hin => ?_⟩
          obtain ⟨-, t, ht, heq⟩ := (h _).mp hin
          exact h2 t ht heq
      by_cases hc : cleSignal s ≠ [] ∧ cleSignal s ∉ vus
      · rw [dedupAux, dedupSpecAux, if_pos hc, if_pos (hiff.mp hc)]
        congr 1
        apply dedupAux_eq_dedupSpecAux rest
        intro k
        constructor
        · intro hk
          rcases List.mem_cons.mp hk with hk | hk
          · exact hk ▸ ⟨hc.1, s, List.mem_append_right pref (List.mem_singleton.mpr rfl), rfl⟩
          · obtain ⟨hne, t, ht, heq⟩ := (h k).mp hk
            exact ⟨hne, t, List.mem_append_left _ ht, heq⟩
        · rintro ⟨hne, t, ht, heq⟩
          rcases List.mem_append.mp ht with ht | ht
          · exact List.mem_cons_of_mem _ ((h k).mpr ⟨hne, t, ht, heq⟩)
          · rw [List.mem_singleton.mp ht] at heq
            exact heq ▸ List.mem_cons_self _ _
      · rw [dedupAux, dedupSpecAux, if_neg hc,
          if_neg (fun hspec => hc (hiff.mpr hspec))]
        apply dedupAux_eq_dedupSpecAux rest
        intro k
        constructor
        · intro hk
          obtain ⟨hne, t, ht, heq⟩ := (h k).mp hk
          exact ⟨hne, t, List.mem_append_left _ ht, heq⟩
        · rintro ⟨hne, t, ht, heq⟩
          rcases List.mem_append.mp ht with ht | ht
          · exact (h k).mpr ⟨hne, t, ht, heq⟩
          · rw [List.mem_singleton.mp ht] at heq
            subst heq
            rcases Decidable.not_and_iff_or_not.mp hc with hk0 | hk1
            · exact absurd hne (by simpa using hk0)
            · simpa using hk1
  termination_by rest => rest.length

/-- The deduplicated output is a subsequence of the input. -/
theorem dedupAux_sublist :
    ∀ (rest : List Signal) (vus : List (List Char)),
      (dedupAux rest vus).Sublist rest
  | [], _ => List.Sublist.refl []
  | s :: rest, vus => by
      rw [dedupAux]
      split_ifs
      · exact List.Sublist.cons₂ s (dedupAux_sublist rest _)
      · exact List.Sublist.cons s (dedupAux_sublist rest vus)

/-- C8: `_dedupliquer` returns exactly the first-occurrence
deduplication described by the spec — a subsequence of the input keeping,
for each nonempty identity key, only the earliest signal bearing it, and
dropping every signal with an empty or whitespace-only key (whose trimmed
key is empty) — with no field merging (the output records are input
records, unchanged). -/
theorem C8_dedup_first_occurrence (signaux : List Signal) :
    dedupliquer signaux = dedupSpec signaux ∧
    (dedupliquer signaux).Sublist signaux := by
  constructor
  · exact dedupAux_eq_dedupSpecAux signaux [] [] (by simp)
  · exact dedupAux_sublist signaux []

set_option maxRecDepth 8000 in
/-- The blended-and-truncated score with zero bonus, for every admissible
oracle relevance score: it is `floor(0.7 * s)` computed in binary64, which
agrees with the exact `7 * s / 10` everywhere on [0, 100] except `s = 90`,
where the double product `90 * 0.7 = 62.99999999999999...` truncates to
62. -/
theorem pyBlend_zero_bonus :
    ∀ s : ℕ, s < 101 → pyBlend s 0 = if s = 90 then 62 else 7 * s / 10 := by
  decide

/-- C10 (counterexample): for oracle score 90, no matching tag and
neutral urgency, the final score is 62, not
`floor(0.7 × 90) = 63`: the claim's exact-floor formula fails on the
binary64 arithmetic the code actually performs. -/
theorem C10_counterexample :
    calculerScoreFinal 90 [] "modere" = 62 ∧
    calculerScoreFinal 90 [] "modere" ≠ 7 * 90 / 10 := by
  decide

/-- C10 (amended): for every oracle score in [0, 100], tag list matching
no rule key, and urgency neither "critique" nor "fort", the final score
is exactly the binary64 value `int(score * 0.7)` — which equals
`floor(0.7 × score)` for every score except 90 (where it is 62) — hence
at most 70, so the CRITIQUE tier (threshold 80) is unreachable for such
signals. -/
theorem C10_no_match_capped (score_ia : ℕ) (tags : List String)
    (urg : String) (hs : score_ia ≤ 100)
    (hmatch : ∀ kv ∈ SCORING_WEIGHTS, matchesGrid tags kv.1 = false)
    (hcrit : urg ≠ "critique") (hfort : urg ≠ "fort") :
    calculerScoreFinal score_ia tags urg = pyBlend score_ia 0 ∧
    (score_ia ≠ 90 →
      calculerScoreFinal score_ia tags urg = 7 * score_ia / 10) ∧
    calculerScoreFinal score_ia tags urg ≤ 70 ∧
    determinerNiveau (calculerScoreFinal score_ia tags urg) ≠ "CRITIQUE" := by
  have hfind : SCORING_WEIGHTS.find? (fun kv => matchesGrid tags kv.1) = none := by
    apply List.find?_eq_none.mpr
    intro kv hkv
    simp [hmatch kv hkv]
  have hpoids : premierPoids tags = 0 := by
    simp [premierPoids, hfind]
  have hbonus : bonusGrille tags = 0 := by
    rw [C2_amended, hpoids, Nat.mul_zero]
  have hval := pyBlend_zero_bonus score_ia (by omega)
  have hle : pyBlend score_ia 0 ≤ 70 := by
    by_cases h90 : score_ia = 90
    · rw [if_pos h90] at hval
      omega
    · rw [if_neg h90] at hval
      omega
  have heq : calculerScoreFinal score_ia tags urg = pyBlend score_ia 0 := by
    unfold calculerScoreFinal
    rw [hbonus]
    simp only [Nat.zero_div, Nat.min_zero, if_neg hcrit, if_neg hfort,
      Nat.max_eq_right (Nat.zero_le _)]
    omega
  refine ⟨heq, fun h90 => ?_, by omega, ?_⟩
  · rw [heq, hval, if_neg h90]
  · rw [heq]
    unfold determinerNiveau SEUIL_CRITIQUE SEUIL_VIGILANCE
    rw [if_neg (by omega)]
    split_ifs <;> decide

/-- C10 witness: the amended facts at oracle score 85, a tag list
matching no rule key, and moderate urgency. -/
theorem C10_no_match_capped_witness :
    calculerScoreFinal 85 ["xyz"] "modere" = pyBlend 85 0 ∧
    calculerScoreFinal 85 ["xyz"] "modere" ≤ 70 ∧
    determinerNiveau (calculerScoreFinal 85 ["xyz"] "modere") ≠ "CRITIQUE" :=
  ⟨(C10_no_match_capped 85 ["xyz"] "modere" (by decide) (by decide)
      (by decide) (by decide)).1,
   (C10_no_match_capped 85 ["xyz"] "modere" (by decide) (by decide)
      (by decide) (by decide)).2.2.1,
   (C10_no_match_capped 85 ["xyz"] "modere" (by decide) (by decide)
      (by decide) (by decide)).2.2.2⟩
